import Mathlib

/-!
Shallow embedding of the RabbitMQ Request/Reply coordination layer of the
`atender-service` repository, as implemented in
`src/services/RabbitMQRequestReplyService.ts` (with the response-payload
extraction of `src/services/FaceRecognitionService.ts`).

The service keeps a `Map<string, PendingRequest>` of outstanding calls keyed by
a freshly generated correlation id (uuid v4).  We embed:

* the JS `Map` as an insertion-ordered association list with the exact
  `get`/`set`/`delete` semantics the code relies on;
* correlation ids as natural numbers handed out by a monotone counter
  (modelling the freshness of uuid v4 generation);
* the service's operations (`sendRequest`, `handleResponse`, the `setTimeout`
  callback armed by `sendRequest`, `cleanup`, `getStats`) as pure state
  transformers, and whole executions as folds of an event list over them;
* JavaScript's `parseInt(s, 10)` and the `||` fallback operator, which the
  code uses to translate a remote error `{code, message}` into an `AppError`.

Timers are modelled by the observation, true of the source, that a pending
entry's deadline timer is armed exactly while the entry is in the map: every
path that removes an entry first calls `clearTimeout`, and the timer callback
itself removes the entry.  Hence the timer-fire event is enabled precisely on
the ids currently registered.
-/

namespace AtenderService

/-- Application error as in `src/errors/AppError.ts`: a numeric code and a
message (`new AppError(code, message)`). -/
structure AppError where
  code : Int
  message : String
deriving DecidableEq, Repr

/-- The `error` field of a `BaseResponse`
(`src/types/faceMessaging.types.ts`): `{code: string, message: string}`. -/
structure FaceErrorInfo where
  code : String
  message : String
deriving DecidableEq, Repr

/-- The `data` field of a `FaceVerificationResponse`
(`src/types/faceMessaging.types.ts`), pared to the fields the embedded code
reads.  Confidences are modelled as rationals. -/
structure VerificationData where
  verified : Bool
  confidence : ℚ
  userId : String
  requiredConfidence : ℚ
  distance : Option ℚ
deriving DecidableEq, Repr

/-- Response envelope (`BaseResponse` of `src/types/faceMessaging.types.ts`,
with the `data` payload of a verification reply).  `requestId` is the
correlation id echoed from the request; ids are modelled as naturals. -/
structure BaseResponse where
  requestId : Nat
  timestamp : String
  success : Bool
  error : Option FaceErrorInfo
  data : VerificationData
deriving DecidableEq, Repr

/-! ### JavaScript `parseInt(s, 10)` and the `||` fallback -/

/-- Whitespace skipped by JavaScript `parseInt` before the number. -/
def jsWhitespace (c : Char) : Bool :=
  c = ' ' || c = '\t' || c = '\n' || c = '\r'

/-- Numeric value of a decimal digit character. -/
def digitVal (c : Char) : Nat := c.toNat - 48

/-- JavaScript `parseInt(s, 10)`: skip leading whitespace, read an optional
sign, then the longest prefix of decimal digits; `none` models `NaN` (no
digits found). -/
def parseIntJS (s : String) : Option Int :=
  let cs := s.toList.dropWhile jsWhitespace
  let signed : Int × List Char :=
    match cs with
    | '-' :: rest => (-1, rest)
    | '+' :: rest => (1, rest)
    | _ => (1, cs)
  let ds := signed.2.takeWhile Char.isDigit
  if ds.isEmpty then none
  else some (signed.1 * Int.ofNat (ds.foldl (fun a c => a * 10 + digitVal c) 0))

/-- JavaScript `x || dflt` for an optional string (`undefined` and the empty
string are falsy). -/
def jsOrString (v : Option String) (dflt : String) : String :=
  match v with
  | none => dflt
  | some s => if s = "" then dflt else s

/-- JavaScript `x || dflt` for an optional integer (`NaN` — here `none` — and
`0` are falsy). -/
def jsOrInt (v : Option Int) (dflt : Int) : Int :=
  match v with
  | none => dflt
  | some n => if n = 0 then dflt else n

/-! ### Remote-error translation (`handleResponse`, lines 166-173) -/

/-- Line 166: `const errorMessage = error?.message || 'Face recognition
service error';`. -/
def remoteErrorMessage (error : Option FaceErrorInfo) : String :=
  jsOrString (error.map FaceErrorInfo.message) "Face recognition service error"

/-- Line 167: `const errorCode = error?.code || '500';`. -/
def remoteErrorCodeStr (error : Option FaceErrorInfo) : String :=
  jsOrString (error.map FaceErrorInfo.code) "500"

/-- Lines 168-173: the `AppError` a `success:false` response is rejected
with: `new AppError(parseInt(errorCode, 10) || 500, errorMessage)`. -/
def remoteAppError (error : Option FaceErrorInfo) : AppError :=
  { code := jsOrInt (parseIntJS (remoteErrorCodeStr error)) 500
    message := remoteErrorMessage error }

/-- Outcome chosen for a registered pending promise by `handleResponse`
(lines 162-174): resolve with the whole response object on `success`,
otherwise reject with the translated `AppError`. -/
inductive Settlement where
  | resolved (resp : BaseResponse)
  | rejected (err : AppError)
deriving DecidableEq, Repr

/-- Lines 162-174 of `handleResponse` as a pure function of the response. -/
def settleResponse (resp : BaseResponse) : Settlement :=
  if resp.success then .resolved resp else .rejected (remoteAppError resp.error)

/-! ### The pending-request registry: a JS `Map` -/

/-- Entry of the `pendingRequests` map (`PendingRequest` of
`RabbitMQRequestReplyService.ts`).  The `resolve`/`reject` closures are
represented by the terminations the step function emits; `timeoutMs` records
the duration the entry's `setTimeout` deadline timer was armed with. -/
structure PendingRequest where
  requestId : Nat
  requestedAt : Nat
  timeoutMs : Nat
deriving DecidableEq, Repr

/-- Registry representation: insertion-ordered association list, the
observable behaviour of a JavaScript `Map`. -/
abbrev Registry := List (Nat × PendingRequest)

/-- JS `map.get(k)`: value of the first (and, under the map invariant, only)
entry with key `k`. -/
def mapGet : Registry → Nat → Option PendingRequest
  | [], _ => none
  | (k', v) :: rest, k => if k' = k then some v else mapGet rest k

/-- JS `map.delete(k)`: drop every entry with key `k`. -/
def mapDelete : Registry → Nat → Registry
  | [], _ => []
  | (k', v) :: rest, k =>
      if k' = k then mapDelete rest k else (k', v) :: mapDelete rest k

/-- JS `map.has(k)`. -/
def mapHas (m : Registry) (k : Nat) : Bool := (mapGet m k).isSome

/-- In-place update of the entries with key `k`, keeping their position. -/
def overwrite : Registry → Nat → PendingRequest → Registry
  | [], _, _ => []
  | (k', v') :: rest, k, v =>
      if k' = k then (k, v) :: overwrite rest k v
      else (k', v') :: overwrite rest k v

/-- JS `map.set(k, v)`: update in place when the key is present (keeping its
insertion position), append otherwise.  Note there is no failure path: a
present key is silently overwritten. -/
def mapSet (m : Registry) (k : Nat) (v : PendingRequest) : Registry :=
  if mapHas m k then overwrite m k v else m ++ [(k, v)]

/-- Keys of the registry, in insertion order. -/
def keys (m : Registry) : List Nat := m.map Prod.fst

example : mapGet (mapSet [] 0 ⟨0, 7, 100⟩) 0 = some ⟨0, 7, 100⟩ := by decide
example : mapDelete (mapSet [] 0 ⟨0, 7, 100⟩) 0 = [] := by decide
example : parseIntJS "404" = some 404 := by decide
example : parseIntJS "abc" = none := by decide
example : parseIntJS "  -12x" = some (-12) := by decide
example : remoteAppError none = ⟨500, "Face recognition service error"⟩ := by decide
example : remoteAppError (some ⟨"404", "face not found"⟩) = ⟨404, "face not found"⟩ := by
  decide

/-! ### Service state and operations -/

/-- State of a `RabbitMQRequestReplyService` instance: the pending-request
map and the `isInitialized` flag, plus the counter handing out fresh
correlation ids (model of the uuid v4 generator). -/
structure ServiceState where
  pendingRequests : Registry
  isInitialized : Bool
  nextUuid : Nat
deriving DecidableEq, Repr

/-- Freshly constructed service: empty map, not initialized. -/
def initialState : ServiceState := ⟨[], false, 0⟩

/-- Completion of a pending call's promise, tagged with which of the four
terminations produced it. -/
inductive Termination where
  | resolvedSuccess (id : Nat) (resp : BaseResponse)
  | rejectedRemote (id : Nat) (err : AppError)
  | timedOut (id : Nat) (err : AppError)
  | cancelled (id : Nat) (err : AppError)
deriving DecidableEq, Repr

/-- Correlation id of the call a termination completes. -/
def Termination.id : Termination → Nat
  | .resolvedSuccess i _ => i
  | .rejectedRemote i _ => i
  | .timedOut i _ => i
  | .cancelled i _ => i

/-- Error thrown by `sendRequest` when the service is not initialized
(line 83). -/
def notInitializedError : AppError :=
  ⟨500, "RabbitMQRequestReplyService não inicializado"⟩

/-- Error thrown by `sendRequest` when publishing fails (line 133). -/
def transportError (queue : String) : AppError :=
  ⟨503, "Falha ao enviar request para " ++ queue⟩

/-- Error every pending call is rejected with by `cleanup` (line 185). -/
def shutdownError : AppError := ⟨503, "Service shutting down"⟩

/-- Error the deadline timer rejects a call with (lines 104-109). -/
def timeoutErr (timeoutMs requestId : Nat) : AppError :=
  ⟨504, "Request timeout after " ++ toString timeoutMs
      ++ "ms (requestId: " ++ toString requestId ++ ")"⟩

/-- Deadline instant of a pending entry: the moment its `setTimeout` timer,
armed at registration for `timeoutMs`, fires. -/
def deadline (p : PendingRequest) : Nat := p.requestedAt + p.timeoutMs

/-- What a `sendRequest` invocation does from the caller's point of view. -/
inductive SendOutcome where
  | threwNotInitialized (err : AppError)
  | threwTransport (err : AppError)
  | awaitingReply (requestId : Nat)
deriving DecidableEq, Repr

/-- `sendRequest` (lines 77-137).  `timeout = none` models an omitted caller
argument (the TS parameter default `30000` then applies); `publishOk` is
whether `rabbitMQ.publish` succeeds; `now` is `Date.now()` at registration.
Not initialized → throw; otherwise generate the fresh id, register the
pending entry (arming its deadline timer), then publish; on publish failure,
clear the timer, delete the just-registered entry and throw a transport
error. -/
def sendRequest (s : ServiceState) (queue : String) (timeout : Option Nat)
    (publishOk : Bool) (now : Nat) : ServiceState × SendOutcome :=
  if s.isInitialized = false then
    (s, .threwNotInitialized notInitializedError)
  else
    let timeoutMs := timeout.getD 30000
    let requestId := s.nextUuid
    let s1 : ServiceState :=
      { s with
          pendingRequests :=
            mapSet s.pendingRequests requestId ⟨requestId, now, timeoutMs⟩
          nextUuid := s.nextUuid + 1 }
    if publishOk then (s1, .awaitingReply requestId)
    else
      ({ s1 with pendingRequests := mapDelete s1.pendingRequests requestId },
       .threwTransport (transportError queue))

/-- Result of the reply listener processing one inbound response. -/
inductive HandleResult where
  | unknownIdWarning
  | completed (t : Termination)
deriving DecidableEq, Repr

/-- Tag a settlement with the id it completes. -/
def terminationOfSettle (id : Nat) : Settlement → Termination
  | .resolved resp => .resolvedSuccess id resp
  | .rejected err => .rejectedRemote id err

/-- `handleResponse` (lines 142-175): look the correlation id up; unknown →
log a warning and return; known → clear the timer, delete the entry, then
resolve or reject the pending promise. -/
def handleResponse (s : ServiceState) (resp : BaseResponse) :
    ServiceState × HandleResult :=
  match mapGet s.pendingRequests resp.requestId with
  | none => (s, .unknownIdWarning)
  | some _ =>
      ({ s with pendingRequests := mapDelete s.pendingRequests resp.requestId },
       .completed (terminationOfSettle resp.requestId (settleResponse resp)))

/-- The `setTimeout` callback armed in lines 102-110, firing for `id`: delete
the entry and reject with the 504 timeout error.  The timer exists (was not
`clearTimeout`-ed) exactly while the entry is registered, so the event is a
no-op on an unregistered id. -/
def fireTimeout (s : ServiceState) (id : Nat) :
    ServiceState × Option Termination :=
  match mapGet s.pendingRequests id with
  | none => (s, none)
  | some p =>
      ({ s with pendingRequests := mapDelete s.pendingRequests id },
       some (.timedOut id (timeoutErr p.timeoutMs id)))

/-- `cleanup` (lines 180-191): clear every timer, reject every pending call
with the shutdown error, empty the map, mark uninitialized. -/
def cleanup (s : ServiceState) : ServiceState × List Termination :=
  ({ s with pendingRequests := [], isInitialized := false },
   s.pendingRequests.map (fun p => .cancelled p.1 shutdownError))

/-- `initialize` succeeding (lines 38-67): already initialized → warn and
return; otherwise assert the reply queue, start consuming, set the flag. -/
def initService (s : ServiceState) : ServiceState :=
  if s.isInitialized then s else { s with isInitialized := true }

/-- Return value of `getStats` (lines 196-206). -/
structure Stats where
  pendingRequests : Nat
  isInitialized : Bool
  replyQueue : String
deriving DecidableEq, Repr

/-- `getStats` (lines 196-206). -/
def getStats (s : ServiceState) (replyQueue : String) : Stats :=
  ⟨s.pendingRequests.length, s.isInitialized, replyQueue⟩

/-! ### Executions -/

/-- External events driving the service. -/
inductive Event where
  | initOk
  | send (queue : String) (timeout : Option Nat) (publishOk : Bool) (now : Nat)
  | deliver (resp : BaseResponse)
  | timerFire (id : Nat)
  | shutdown
deriving DecidableEq, Repr

/-- One event step, returning the terminations (pending-promise completions)
it produced. -/
def step (s : ServiceState) (e : Event) : ServiceState × List Termination :=
  match e with
  | .initOk => (initService s, [])
  | .send q t ok now => ((sendRequest s q t ok now).1, [])
  | .deliver resp =>
      match handleResponse s resp with
      | (s', .unknownIdWarning) => (s', [])
      | (s', .completed t) => (s', [t])
  | .timerFire id =>
      let r := fireTimeout s id
      (r.1, r.2.toList)
  | .shutdown => cleanup s

/-- Run a list of events, collecting all terminations. -/
def run : ServiceState → List Event → ServiceState × List Termination
  | s, [] => (s, [])
  | s, e :: es =>
      let r := step s e
      let r' := run r.1 es
      (r'.1, r.2 ++ r'.2)

/-- Execution from the freshly constructed service. -/
def exec (evs : List Event) : ServiceState × List Termination :=
  run initialState evs

/-! ### The micro-step trace of `sendRequest` (for the ordering claim) -/

/-- Internal actions of one `sendRequest` invocation, in program order. -/
inductive MicroAct where
  | throwNotInitialized
  | generateId (id : Nat)
  | registerPending (id : Nat)
  | publishEnvelope (id : Nat)
  | removePending (id : Nat)
deriving DecidableEq, Repr

/-- A micro action paired with the registry keys at the moment the action is
performed. -/
structure MicroStep where
  act : MicroAct
  registryAt : List Nat
deriving DecidableEq, Repr

/-- The sequence of internal actions `sendRequest` performs (lines 77-137),
each with the registry contents at that point: the not-initialized check,
uuid generation (line 87), the `pendingRequests.set` inside the promise
executor (line 113, which runs synchronously), the publish `await`
(line 124), and — only when the publish fails — the removal of the entry
(lines 128-132). -/
def sendRequestMicro (s : ServiceState) (timeout : Option Nat)
    (publishOk : Bool) (now : Nat) : List MicroStep :=
  if s.isInitialized = false then
    [⟨.throwNotInitialized, keys s.pendingRequests⟩]
  else
    let timeoutMs := timeout.getD 30000
    let id := s.nextUuid
    let reg := mapSet s.pendingRequests id ⟨id, now, timeoutMs⟩
    [⟨.generateId id, keys s.pendingRequests⟩,
     ⟨.registerPending id, keys s.pendingRequests⟩,
     ⟨.publishEnvelope id, keys reg⟩] ++
    (if publishOk then [] else [⟨.removePending id, keys reg⟩])

/-! ### Registry lemmas -/

theorem mapGet_eq_none_iff (m : Registry) (k : Nat) :
    mapGet m k = none ↔ k ∉ keys m := by
  induction m with
  | nil => simp [mapGet, keys]
  | cons p rest ih =>
      obtain ⟨a, b⟩ := p
      by_cases h : a = k
      · subst h
        simp [mapGet, keys]
      · simp [mapGet, keys, h, ih, Ne.symm h]

theorem mem_keys_of_mapGet_some {m : Registry} {k : Nat} {v : PendingRequest}
    (h : mapGet m k = some v) : k ∈ keys m := by
  by_contra hk
  rw [← mapGet_eq_none_iff] at hk
  rw [hk] at h
  exact Option.noConfusion h

theorem mapGet_ne_none_iff (m : Registry) (k : Nat) :
    mapGet m k ≠ none ↔ k ∈ keys m := by
  rw [Ne, mapGet_eq_none_iff]
  exact not_not

theorem mapGet_append (m m' : Registry) (k : Nat) :
    mapGet (m ++ m') k =
      match mapGet m k with
      | some v => some v
      | none => mapGet m' k := by
  induction m with
  | nil => simp [mapGet]
  | cons p rest ih =>
      obtain ⟨a, b⟩ := p
      by_cases ha : a = k
      · subst ha
        simp [mapGet]
      · simpa only [List.cons_append, mapGet, ha, if_false] using ih

theorem mapGet_overwrite_self {m : Registry} {k : Nat} {v : PendingRequest}
    (h : mapHas m k = true) : mapGet (overwrite m k v) k = some v := by
  induction m with
  | nil => simp [mapHas, mapGet] at h
  | cons p rest ih =>
      obtain ⟨a, b⟩ := p
      by_cases ha : a = k
      · subst ha
        simp [overwrite, mapGet]
      · simp only [mapHas, mapGet, ha, if_false] at h
        simp only [overwrite, ha, if_false, mapGet]
        exact ih h

theorem mapGet_eq_none_of_not_has {m : Registry} {k : Nat}
    (h : mapHas m k = false) : mapGet m k = none := by
  cases hm : mapGet m k with
  | none => rfl
  | some v =>
      rw [mapHas, hm] at h
      simp at h

theorem mapGet_mapSet_self (m : Registry) (k : Nat) (v : PendingRequest) :
    mapGet (mapSet m k v) k = some v := by
  by_cases h : mapHas m k = true
  · rw [mapSet, if_pos h]
    exact mapGet_overwrite_self h
  · rw [mapSet, if_neg h, mapGet_append,
      mapGet_eq_none_of_not_has (Bool.eq_false_iff.mpr h)]
    simp [mapGet]

theorem mapGet_overwrite_ne {m : Registry} {k k' : Nat} {v : PendingRequest}
    (h : k' ≠ k) : mapGet (overwrite m k v) k' = mapGet m k' := by
  induction m with
  | nil => rfl
  | cons p rest ih =>
      obtain ⟨a, b⟩ := p
      by_cases ha : a = k
      · subst ha
        simp only [overwrite, if_pos rfl, mapGet, ih, if_neg (Ne.symm h)]
      · simp only [overwrite, if_neg ha, mapGet, ih]

theorem mapGet_mapSet_ne {m : Registry} {k k' : Nat} {v : PendingRequest}
    (h : k' ≠ k) : mapGet (mapSet m k v) k' = mapGet m k' := by
  by_cases hm : mapHas m k = true
  · rw [mapSet, if_pos hm]
    exact mapGet_overwrite_ne h
  · rw [mapSet, if_neg hm, mapGet_append]
    cases hg : mapGet m k' with
    | some v' => rfl
    | none => simp [mapGet, Ne.symm h]

theorem mapGet_mapDelete_self (m : Registry) (k : Nat) :
    mapGet (mapDelete m k) k = none := by
  induction m with
  | nil => rfl
  | cons p rest ih =>
      obtain ⟨a, b⟩ := p
      by_cases ha : a = k
      · simpa only [mapDelete, if_pos ha] using ih
      · simp only [mapDelete, if_neg ha, mapGet, ih, if_neg ha]

theorem mapGet_mapDelete_ne {m : Registry} {k k' : Nat} (h : k' ≠ k) :
    mapGet (mapDelete m k) k' = mapGet m k' := by
  induction m with
  | nil => rfl
  | cons p rest ih =>
      obtain ⟨a, b⟩ := p
      by_cases ha : a = k
      · subst ha
        simp only [mapDelete, if_pos rfl, if_true, mapGet, ih, if_neg (Ne.symm h)]
      · simp only [mapDelete, if_neg ha, mapGet, ih]

theorem keys_mapDelete_sublist (m : Registry) (k : Nat) :
    List.Sublist (keys (mapDelete m k)) (keys m) := by
  induction m with
  | nil => exact List.Sublist.refl _
  | cons p rest ih =>
      obtain ⟨a, b⟩ := p
      by_cases ha : a = k
      · simp only [mapDelete, if_pos ha, keys, List.map_cons]
        exact List.Sublist.cons a ih
      · simp only [mapDelete, if_neg ha, keys, List.map_cons]
        exact List.Sublist.cons₂ a ih

theorem not_mem_keys_mapDelete (m : Registry) (k : Nat) :
    k ∉ keys (mapDelete m k) := by
  rw [← mapGet_eq_none_iff]
  exact mapGet_mapDelete_self m k

theorem mapDelete_append_single {m : Registry} {k : Nat} {v : PendingRequest}
    (h : k ∉ keys m) : mapDelete (m ++ [(k, v)]) k = m := by
  induction m with
  | nil => simp [mapDelete]
  | cons p rest ih =>
      obtain ⟨a, b⟩ := p
      simp only [keys, List.map_cons, List.mem_cons] at h
      push_neg at h
      have hak : ¬ a = k := fun hh => h.1 hh.symm
      show mapDelete ((a, b) :: (rest ++ [(k, v)])) k = (a, b) :: rest
      simp only [mapDelete, if_neg hak]
      exact congrArg ((a, b) :: ·) (ih (by simpa [keys] using h.2))

theorem mapHas_eq_false_of_not_mem {m : Registry} {k : Nat}
    (h : k ∉ keys m) : mapHas m k = false := by
  rw [← mapGet_eq_none_iff] at h
  rw [mapHas, h]
  rfl

theorem mapSet_eq_append {m : Registry} {k : Nat} {v : PendingRequest}
    (h : k ∉ keys m) : mapSet m k v = m ++ [(k, v)] := by
  rw [mapSet, mapHas_eq_false_of_not_mem h]
  rfl

theorem mem_keys_mapSet (m : Registry) (k : Nat) (v : PendingRequest) :
    k ∈ keys (mapSet m k v) := by
  rw [← mapGet_ne_none_iff, mapGet_mapSet_self]
  exact Option.noConfusion

theorem keys_mapSet_subset {m : Registry} {k k' : Nat} {v : PendingRequest}
    (h : k' ∈ keys (mapSet m k v)) : k' ∈ keys m ∨ k' = k := by
  by_cases hk : k' = k
  · exact Or.inr hk
  · rw [← mapGet_ne_none_iff, mapGet_mapSet_ne hk, mapGet_ne_none_iff] at h
    exact Or.inl h

theorem keys_mapDelete_mem {m : Registry} {k k' : Nat}
    (h : k' ∈ keys (mapDelete m k)) : k' ∈ keys m :=
  (keys_mapDelete_sublist m k).mem h

example :
    (exec [.initOk, .send "q" (some 200) true 0, .timerFire 0]).2 =
      [.timedOut 0 (timeoutErr 200 0)] := by decide

/-! ### State invariant -/

/-- Invariant of every reachable service state: all registered correlation
ids were generated (are below the uuid counter) and the registry keys are
distinct (a JS `Map` never holds a key twice). -/
def GoodState (s : ServiceState) : Prop :=
  (∀ k ∈ keys s.pendingRequests, k < s.nextUuid) ∧ (keys s.pendingRequests).Nodup

theorem goodState_initial : GoodState initialState := by
  constructor <;> simp [initialState, keys]

theorem nextUuid_not_mem {s : ServiceState} (h : GoodState s) :
    s.nextUuid ∉ keys s.pendingRequests :=
  fun hm => lt_irrefl _ (h.1 _ hm)

theorem keys_append (m m' : Registry) : keys (m ++ m') = keys m ++ keys m' :=
  List.map_append _ _ _

/-! ### Equation lemmas for the operations -/

theorem sendRequest_not_init {s : ServiceState} {q t ok now}
    (h : s.isInitialized = false) :
    sendRequest s q t ok now = (s, .threwNotInitialized notInitializedError) := by
  rw [sendRequest, if_pos h]

theorem sendRequest_ok {s : ServiceState} {q t now}
    (h : s.isInitialized = true) :
    sendRequest s q t true now =
      ({ s with
          pendingRequests := mapSet s.pendingRequests s.nextUuid
            ⟨s.nextUuid, now, t.getD 30000⟩
          nextUuid := s.nextUuid + 1 },
       .awaitingReply s.nextUuid) := by
  rw [sendRequest, if_neg (by rw [h]; exact fun hh => Bool.noConfusion hh)]
  rfl

theorem sendRequest_pubFail {s : ServiceState} {q t now}
    (h : s.isInitialized = true) :
    sendRequest s q t false now =
      ({ s with
          pendingRequests := mapDelete
            (mapSet s.pendingRequests s.nextUuid ⟨s.nextUuid, now, t.getD 30000⟩)
            s.nextUuid
          nextUuid := s.nextUuid + 1 },
       .threwTransport (transportError q)) := by
  rw [sendRequest, if_neg (by rw [h]; exact fun hh => Bool.noConfusion hh)]
  rfl

theorem handleResponse_unknown {s : ServiceState} {resp : BaseResponse}
    (h : mapGet s.pendingRequests resp.requestId = none) :
    handleResponse s resp = (s, .unknownIdWarning) := by
  unfold handleResponse
  rw [h]

theorem handleResponse_known {s : ServiceState} {resp : BaseResponse}
    {p : PendingRequest} (h : mapGet s.pendingRequests resp.requestId = some p) :
    handleResponse s resp =
      ({ s with pendingRequests := mapDelete s.pendingRequests resp.requestId },
       .completed (terminationOfSettle resp.requestId (settleResponse resp))) := by
  unfold handleResponse
  rw [h]

theorem fireTimeout_cleared {s : ServiceState} {id : Nat}
    (h : mapGet s.pendingRequests id = none) : fireTimeout s id = (s, none) := by
  unfold fireTimeout
  rw [h]

theorem fireTimeout_armed {s : ServiceState} {id : Nat} {p : PendingRequest}
    (h : mapGet s.pendingRequests id = some p) :
    fireTimeout s id =
      ({ s with pendingRequests := mapDelete s.pendingRequests id },
       some (.timedOut id (timeoutErr p.timeoutMs id))) := by
  unfold fireTimeout
  rw [h]

theorem terminationOfSettle_id (id : Nat) (st : Settlement) :
    (terminationOfSettle id st).id = id := by
  cases st <;> rfl

/-! ### Step lemmas -/

theorem goodState_delete {s : ServiceState} (h : GoodState s) (k : Nat) :
    GoodState { s with pendingRequests := mapDelete s.pendingRequests k } := by
  refine ⟨fun k' hk' => h.1 k' (keys_mapDelete_mem hk'), ?_⟩
  exact List.Nodup.sublist (keys_mapDelete_sublist _ _) h.2

theorem goodState_register {s : ServiceState} (h : GoodState s)
    (v : PendingRequest) :
    GoodState { s with
      pendingRequests := mapSet s.pendingRequests s.nextUuid v
      nextUuid := s.nextUuid + 1 } := by
  have hmem : s.nextUuid ∉ keys s.pendingRequests := nextUuid_not_mem h
  constructor
  · intro k hk
    simp only [mapSet_eq_append hmem, keys_append, List.mem_append] at hk
    rcases hk with hk | hk
    · exact Nat.lt_succ_of_lt (h.1 k hk)
    · simp only [keys, List.map_cons, List.map_nil, List.mem_singleton] at hk
      subst hk
      exact Nat.lt_succ_self _
  · simp only [mapSet_eq_append hmem, keys_append]
    rw [List.nodup_append]
    refine ⟨h.2, List.nodup_singleton _, ?_⟩
    intro a ha hb
    simp only [keys, List.map_cons, List.map_nil, List.mem_singleton] at hb
    exact hmem (hb ▸ ha)

theorem step_nextUuid_le (s : ServiceState) (e : Event) :
    s.nextUuid ≤ (step s e).1.nextUuid := by
  cases e with
  | initOk =>
      simp only [step, initService]
      split <;> exact le_refl _
  | send q t ok now =>
      cases hi : s.isInitialized with
      | false => rw [step, sendRequest_not_init hi]
      | true =>
          cases ok with
          | true => rw [step, sendRequest_ok hi]; exact Nat.le_succ _
          | false => rw [step, sendRequest_pubFail hi]; exact Nat.le_succ _
  | deliver resp =>
      cases hm : mapGet s.pendingRequests resp.requestId with
      | none => rw [step, handleResponse_unknown hm]
      | some p => rw [step, handleResponse_known hm]
  | timerFire id =>
      cases hm : mapGet s.pendingRequests id with
      | none => rw [step, fireTimeout_cleared hm]
      | some p => rw [step, fireTimeout_armed hm]
  | shutdown => exact le_refl _

theorem step_good {s : ServiceState} (e : Event) (h : GoodState s) :
    GoodState (step s e).1 := by
  cases e with
  | initOk =>
      simp only [step, initService]
      split
      · exact h
      · exact h
  | send q t ok now =>
      cases hi : s.isInitialized with
      | false => rw [step, sendRequest_not_init hi]; exact h
      | true =>
          cases ok with
          | true => rw [step, sendRequest_ok hi]; exact goodState_register h _
          | false =>
              rw [step, sendRequest_pubFail hi]
              exact goodState_delete (goodState_register h _) _
  | deliver resp =>
      cases hm : mapGet s.pendingRequests resp.requestId with
      | none => rw [step, handleResponse_unknown hm]; exact h
      | some p => rw [step, handleResponse_known hm]; exact goodState_delete h _
  | timerFire id =>
      cases hm : mapGet s.pendingRequests id with
      | none => rw [step, fireTimeout_cleared hm]; exact h
      | some p => rw [step, fireTimeout_armed hm]; exact goodState_delete h _
  | shutdown =>
      constructor <;> simp [step, cleanup, keys]

theorem step_keys {s : ServiceState} (e : Event) :
    ∀ k ∈ keys (step s e).1.pendingRequests,
      k ∈ keys s.pendingRequests ∨ s.nextUuid ≤ k := by
  cases e with
  | initOk =>
      intro k hk
      simp only [step, initService] at hk
      left
      revert hk
      split <;> exact id
  | send q t ok now =>
      cases hi : s.isInitialized with
      | false =>
          rw [step, sendRequest_not_init hi]
          exact fun k hk => Or.inl hk
      | true =>
          cases ok with
          | true =>
              rw [step, sendRequest_ok hi]
              intro k hk
              rcases keys_mapSet_subset hk with hk | hk
              · exact Or.inl hk
              · exact Or.inr (le_of_eq hk.symm)
          | false =>
              rw [step, sendRequest_pubFail hi]
              intro k hk
              rcases keys_mapSet_subset (keys_mapDelete_mem hk) with hk | hk
              · exact Or.inl hk
              · exact Or.inr (le_of_eq hk.symm)
  | deliver resp =>
      cases hm : mapGet s.pendingRequests resp.requestId with
      | none => rw [step, handleResponse_unknown hm]; exact fun k hk => Or.inl hk
      | some p =>
          rw [step, handleResponse_known hm]
          exact fun k hk => Or.inl (keys_mapDelete_mem hk)
  | timerFire id =>
      cases hm : mapGet s.pendingRequests id with
      | none => rw [step, fireTimeout_cleared hm]; exact fun k hk => Or.inl hk
      | some p =>
          rw [step, fireTimeout_armed hm]
          exact fun k hk => Or.inl (keys_mapDelete_mem hk)
  | shutdown => intro k hk; simp [step, cleanup, keys] at hk

theorem step_terms {s : ServiceState} (e : Event) :
    ∀ t ∈ (step s e).2,
      t.id ∈ keys s.pendingRequests ∧
        mapGet (step s e).1.pendingRequests t.id = none := by
  cases e with
  | initOk => intro t ht; simp [step] at ht
  | send q t0 ok now => intro t ht; simp [step] at ht
  | deliver resp =>
      cases hm : mapGet s.pendingRequests resp.requestId with
      | none => rw [step, handleResponse_unknown hm]; intro t ht; simp at ht
      | some p =>
          rw [step, handleResponse_known hm]
          intro t ht
          simp only [List.mem_singleton] at ht
          subst ht
          rw [terminationOfSettle_id]
          exact ⟨mem_keys_of_mapGet_some hm, mapGet_mapDelete_self _ _⟩
  | timerFire id =>
      cases hm : mapGet s.pendingRequests id with
      | none => rw [step, fireTimeout_cleared hm]; intro t ht; simp at ht
      | some p =>
          rw [step, fireTimeout_armed hm]
          intro t ht
          simp only [Option.toList_some, List.mem_singleton] at ht
          subst ht
          exact ⟨mem_keys_of_mapGet_some hm, mapGet_mapDelete_self _ _⟩
  | shutdown =>
      intro t ht
      simp only [step, cleanup, List.mem_map] at ht
      obtain ⟨p, hp, rfl⟩ := ht
      constructor
      · exact List.mem_map_of_mem Prod.fst hp
      · rfl

theorem step_terms_nodup {s : ServiceState} (e : Event) (h : GoodState s) :
    ((step s e).2.map Termination.id).Nodup := by
  cases e with
  | initOk => simp [step]
  | send q t ok now => simp [step]
  | deliver resp =>
      cases hm : mapGet s.pendingRequests resp.requestId with
      | none => rw [step, handleResponse_unknown hm]; simp
      | some p => rw [step, handleResponse_known hm]; simp
  | timerFire id =>
      cases hm : mapGet s.pendingRequests id with
      | none => rw [step, fireTimeout_cleared hm]; simp
      | some p => rw [step, fireTimeout_armed hm]; simp
  | shutdown =>
      have heq : ((step s .shutdown).2.map Termination.id) = keys s.pendingRequests := by
        simp only [step, cleanup, List.map_map, keys]
        rfl
      rw [heq]
      exact h.2

/-! ### Whole-execution lemmas -/

theorem run_cons (s : ServiceState) (e : Event) (es : List Event) :
    run s (e :: es) =
      ((run (step s e).1 es).1, (step s e).2 ++ (run (step s e).1 es).2) := rfl

theorem run_spec (evs : List Event) :
    ∀ s : ServiceState, GoodState s →
      GoodState (run s evs).1 ∧
      s.nextUuid ≤ (run s evs).1.nextUuid ∧
      ((run s evs).2.map Termination.id).Nodup ∧
      (∀ t ∈ (run s evs).2, t.id ∈ keys s.pendingRequests ∨ s.nextUuid ≤ t.id) := by
  induction evs with
  | nil =>
      intro s h
      refine ⟨h, le_refl _, by simp [run], ?_⟩
      intro t ht
      simp [run] at ht
  | cons e es ih =>
      intro s h
      have hg1 : GoodState (step s e).1 := step_good e h
      have hIH := ih (step s e).1 hg1
      rw [run_cons]
      refine ⟨hIH.1, le_trans (step_nextUuid_le s e) hIH.2.1, ?_, ?_⟩
      · rw [List.map_append, List.nodup_append]
        refine ⟨step_terms_nodup e h, hIH.2.2.1, ?_⟩
        intro x hx hx'
        simp only [List.mem_map] at hx hx'
        obtain ⟨t, ht, rfl⟩ := hx
        obtain ⟨t', ht', hid⟩ := hx'
        have h1 := step_terms e t ht
        rcases hIH.2.2.2 t' ht' with hmem | hge
        · rw [hid] at hmem
          exact (mapGet_eq_none_iff _ _).mp h1.2 hmem
        · rw [hid] at hge
          have hlt : t.id < s.nextUuid := h.1 _ h1.1
          exact absurd hge (not_le.mpr (lt_of_lt_of_le hlt (step_nextUuid_le s e)))
      · intro t ht
        rcases List.mem_append.mp ht with ht | ht
        · exact Or.inl (step_terms e t ht).1
        · rcases hIH.2.2.2 t ht with hmem | hge
          · rcases step_keys e _ hmem with hk | hk
            · exact Or.inl hk
            · exact Or.inr hk
          · exact Or.inr (le_trans (step_nextUuid_le s e) hge)

theorem exec_good (evs : List Event) : GoodState (exec evs).1 :=
  (run_spec evs initialState goodState_initial).1

theorem exec_terms_nodup (evs : List Event) :
    ((exec evs).2.map Termination.id).Nodup :=
  (run_spec evs initialState goodState_initial).2.2.1

/-! ### The caller-side payload extraction (`FaceRecognitionService.verifyFace`) -/

/-- Result `FaceVerificationResult` of `src/services/FaceRecognitionService.ts`
(the fields derived from the reply payload; the human-readable `message`
string is omitted). -/
structure FaceVerificationResult where
  verified : Bool
  confidence : ℚ
  requiredConfidence : ℚ
  distance : Option ℚ
deriving DecidableEq, Repr

/-- Lines 91-100 of `FaceRecognitionService.verifyFace`: the result is built
by reading the resolved response's `data` payload field by field. -/
def processVerificationResponse (resp : BaseResponse) : FaceVerificationResult :=
  { verified := resp.data.verified
    confidence := resp.data.confidence
    requiredConfidence := resp.data.requiredConfidence
    distance := resp.data.distance }

/-- Recognizer for the publish micro action (used to count publish
attempts). -/
def MicroAct.isPublish : MicroAct → Bool
  | .publishEnvelope _ => true
  | _ => false

/-! ### Claim theorems -/

/-- C1: for every call registered via `sendRequest`, the four terminations
(resolve-with-success, resolve-with-remote-error, timeout, shutdown-cancel)
are mutually exclusive and final — over any execution each correlation id is
completed by at most one termination; every termination happens while the id
is registered and removes the entry from the registry at that very step; and
while an id stays registered its timeout termination remains enabled, so in
a completed execution exactly one of the four completes each call. -/
theorem C1_exactly_one_termination :
    (∀ evs : List Event, ((exec evs).2.map Termination.id).Nodup) ∧
    (∀ (evs : List Event) (e : Event), ∀ t ∈ (step (exec evs).1 e).2,
        mapGet (exec evs).1.pendingRequests t.id ≠ none ∧
        mapGet (step (exec evs).1 e).1.pendingRequests t.id = none) ∧
    (∀ (evs : List Event) (id : Nat),
        mapGet (exec evs).1.pendingRequests id ≠ none →
        ∃ p : PendingRequest,
          (step (exec evs).1 (.timerFire id)).2 =
            [.timedOut id (timeoutErr p.timeoutMs id)]) := by
  refine ⟨exec_terms_nodup, ?_, ?_⟩
  · intro evs e t ht
    have h := step_terms e t ht
    exact ⟨(mapGet_ne_none_iff _ _).mpr h.1, h.2⟩
  · intro evs id hid
    cases hm : mapGet (exec evs).1.pendingRequests id with
    | none => exact absurd hm hid
    | some p =>
        refine ⟨p, ?_⟩
        rw [step, fireTimeout_armed hm]
        rfl

/-- Witness for C1 on the concrete execution that initializes, sends one
request (id 0) and then delivers a successful reply for it. -/
theorem C1_witness :
    (mapGet (exec [.initOk, .send "q" none true 0]).1.pendingRequests 0 ≠ none ∧
     mapGet (step (exec [.initOk, .send "q" none true 0]).1
        (.deliver ⟨0, "t", true, none, ⟨true, 0, "u1", 0, none⟩⟩)).1.pendingRequests
        0 = none) ∧
    (∃ p : PendingRequest,
        (step (exec [.initOk, .send "q" none true 0]).1 (.timerFire 0)).2 =
          [.timedOut 0 (timeoutErr p.timeoutMs 0)]) := by
  constructor
  · have h := C1_exactly_one_termination.2.1 [.initOk, .send "q" none true 0]
      (.deliver ⟨0, "t", true, none, ⟨true, 0, "u1", 0, none⟩⟩)
      (.resolvedSuccess 0 ⟨0, "t", true, none, ⟨true, 0, "u1", 0, none⟩⟩)
      (by decide)
    exact h
  · exact C1_exactly_one_termination.2.2 [.initOk, .send "q" none true 0] 0
      (by decide)

/-- C2: in every `sendRequest` after successful initialization, the pending
entry for the fresh correlation id is registered strictly before the envelope
is published, and at the moment of the publish action the id is present in
the registry — the envelope is never published while its id is absent. -/
theorem C2_register_before_publish :
    ∀ (s : ServiceState) (t : Option Nat) (ok : Bool) (now : Nat),
      s.isInitialized = true →
      ∀ (j : Nat) (st : MicroStep),
        (sendRequestMicro s t ok now).get? j = some st →
        ∀ id : Nat, st.act = .publishEnvelope id →
          id ∈ st.registryAt ∧
          ∃ i : Nat, i < j ∧
            ∃ st' : MicroStep,
              (sendRequestMicro s t ok now).get? i = some st' ∧
              st'.act = .registerPending id := by
  intro s t ok now hinit j st hget id hact
  have hne : ¬ s.isInitialized = false := by
    rw [hinit]
    exact fun hh => Bool.noConfusion hh
  rw [sendRequestMicro, if_neg hne] at hget ⊢
  cases ok with
  | true =>
      rcases j with _ | _ | _ | j
      · cases hget
        simp [MicroAct.isPublish] at hact
      · cases hget
        simp at hact
      · cases hget
        cases hact
        refine ⟨mem_keys_mapSet _ _ _, 1, Nat.one_lt_two, ?_⟩
        exact ⟨⟨.registerPending s.nextUuid, keys s.pendingRequests⟩, rfl, rfl⟩
      · cases hget
  | false =>
      rcases j with _ | _ | _ | _ | j
      · cases hget
        simp at hact
      · cases hget
        simp at hact
      · cases hget
        cases hact
        refine ⟨mem_keys_mapSet _ _ _, 1, Nat.one_lt_two, ?_⟩
        exact ⟨⟨.registerPending s.nextUuid, keys s.pendingRequests⟩, rfl, rfl⟩
      · cases hget
        simp at hact
      · cases hget

/-- Witness for C2 on an initialized state: in the micro trace of a
successful `sendRequest`, the publish action at index 2 carries id 0 in its
registry snapshot and is preceded by the registration at index 1. -/
theorem C2_witness :
    (0 : Nat) ∈ (MicroStep.mk (.publishEnvelope 0) [0]).registryAt ∧
    ∃ i : Nat, i < 2 ∧
      ∃ st' : MicroStep,
        (sendRequestMicro ⟨[], true, 0⟩ none true 7).get? i = some st' ∧
        st'.act = .registerPending 0 :=
  C2_register_before_publish ⟨[], true, 0⟩ none true 7 rfl 2
    ⟨.publishEnvelope 0, [0]⟩ (by decide) 0 rfl

/-- C3: delivering a response whose correlation id is not registered is a
harmless no-op — the handler returns the warning result, the state (hence
the registry and its size) is unchanged and no pending call is affected; in
particular a second resolution attempt for an id always finds it gone and
does nothing. -/
theorem C3_unknown_id_harmless :
    (∀ (s : ServiceState) (resp : BaseResponse),
        mapGet s.pendingRequests resp.requestId = none →
        handleResponse s resp = (s, .unknownIdWarning) ∧
        (∀ rq : String, getStats (handleResponse s resp).1 rq = getStats s rq)) ∧
    (∀ (s : ServiceState) (resp : BaseResponse),
        handleResponse (handleResponse s resp).1 resp =
          ((handleResponse s resp).1, .unknownIdWarning)) := by
  constructor
  · intro s resp h
    rw [handleResponse_unknown h]
    exact ⟨rfl, fun rq => rfl⟩
  · intro s resp
    cases hm : mapGet s.pendingRequests resp.requestId with
    | none =>
        rw [handleResponse_unknown hm]
        exact handleResponse_unknown hm
    | some p =>
        rw [handleResponse_known hm]
        exact handleResponse_unknown (mapGet_mapDelete_self _ _)

/-- Witness for C3: a reply with the never-registered id 5 delivered to a
state holding only id 0 changes nothing. -/
theorem C3_witness :
    handleResponse ⟨[(0, ⟨0, 0, 30000⟩)], true, 1⟩
        ⟨5, "t", true, none, ⟨true, 0, "u", 0, none⟩⟩ =
      (⟨[(0, ⟨0, 0, 30000⟩)], true, 1⟩, .unknownIdWarning) ∧
    (∀ rq : String,
        getStats (handleResponse ⟨[(0, ⟨0, 0, 30000⟩)], true, 1⟩
          ⟨5, "t", true, none, ⟨true, 0, "u", 0, none⟩⟩).1 rq =
        getStats ⟨[(0, ⟨0, 0, 30000⟩)], true, 1⟩ rq) :=
  C3_unknown_id_harmless.1 ⟨[(0, ⟨0, 0, 30000⟩)], true, 1⟩
    ⟨5, "t", true, none, ⟨true, 0, "u", 0, none⟩⟩ (by decide)

/-- C4: `sendRequest` registers the entry with the default timeout 30000 ms
when the caller supplies none, and with the supplied timeout when positive;
the armed deadline is exactly `timeoutMs` after registration; and when the
deadline timer of a registered entry fires it removes the entry from the
registry and completes the call with the 504 timeout error that names its
`timeoutMs`. -/
theorem C4_timeout_default_and_expiry :
    (∀ (s : ServiceState) (q : String) (now : Nat), s.isInitialized = true →
        mapGet (sendRequest s q none true now).1.pendingRequests s.nextUuid =
          some ⟨s.nextUuid, now, 30000⟩) ∧
    (∀ (s : ServiceState) (q : String) (now tm : Nat),
        s.isInitialized = true → 0 < tm →
        mapGet (sendRequest s q (some tm) true now).1.pendingRequests s.nextUuid =
          some ⟨s.nextUuid, now, tm⟩ ∧
        deadline ⟨s.nextUuid, now, tm⟩ = now + tm) ∧
    (∀ (s : ServiceState) (id : Nat) (p : PendingRequest),
        mapGet s.pendingRequests id = some p →
        fireTimeout s id =
          ({ s with pendingRequests := mapDelete s.pendingRequests id },
           some (.timedOut id (timeoutErr p.timeoutMs id))) ∧
        mapGet (fireTimeout s id).1.pendingRequests id = none ∧
        (timeoutErr p.timeoutMs id).code = 504) := by
  refine ⟨?_, ?_, ?_⟩
  · intro s q now hinit
    rw [sendRequest_ok hinit]
    exact mapGet_mapSet_self _ _ _
  · intro s q now tm hinit htm
    refine ⟨?_, rfl⟩
    rw [sendRequest_ok hinit]
    exact mapGet_mapSet_self _ _ _
  · intro s id p hm
    refine ⟨fireTimeout_armed hm, ?_, rfl⟩
    rw [fireTimeout_armed hm]
    exact mapGet_mapDelete_self _ _

/-- Witness for C4: a request sent with no timeout argument is registered
with 30000 ms; one sent with 200 ms is registered with 200 ms and its timer
firing removes it with the 504 error. -/
theorem C4_witness :
    mapGet (sendRequest ⟨[], true, 0⟩ "q" none true 3).1.pendingRequests 0 =
      some ⟨0, 3, 30000⟩ ∧
    mapGet (sendRequest ⟨[], true, 0⟩ "q" (some 200) true 3).1.pendingRequests 0 =
      some ⟨0, 3, 200⟩ ∧
    deadline ⟨0, 3, 200⟩ = 3 + 200 ∧
    fireTimeout ⟨[(0, ⟨0, 3, 200⟩)], true, 1⟩ 0 =
      (⟨[], true, 1⟩, some (.timedOut 0 (timeoutErr 200 0))) ∧
    (timeoutErr 200 0).code = 504 := by
  refine ⟨C4_timeout_default_and_expiry.1 ⟨[], true, 0⟩ "q" 3 rfl, ?_, ?_, ?_, ?_⟩
  · exact (C4_timeout_default_and_expiry.2.1 ⟨[], true, 0⟩ "q" 3 200 rfl
      (by decide)).1
  · exact (C4_timeout_default_and_expiry.2.1 ⟨[], true, 0⟩ "q" 3 200 rfl
      (by decide)).2
  · exact (C4_timeout_default_and_expiry.2.2 ⟨[(0, ⟨0, 3, 200⟩)], true, 1⟩ 0
      ⟨0, 3, 200⟩ (by decide)).1
  · exact (C4_timeout_default_and_expiry.2.2 ⟨[(0, ⟨0, 3, 200⟩)], true, 1⟩ 0
      ⟨0, 3, 200⟩ (by decide)).2.2

/-- C5: `cleanup` completes every pending call with the shutdown error,
cancels each call's deadline timer (firing any timer afterwards is a no-op),
leaves the registry empty with `getStats` reporting 0 pending, and marks the
coordinator uninitialized so that a subsequent `sendRequest` is rejected with
the very same not-initialized error as before `initialize`; it is safe with
no calls pending and safe to call twice. -/
theorem C5_cleanup_shutdown :
    ∀ s : ServiceState,
      (cleanup s).1.pendingRequests = [] ∧
      (cleanup s).1.isInitialized = false ∧
      (∀ rq : String, (getStats (cleanup s).1 rq).pendingRequests = 0) ∧
      (cleanup s).2 =
        s.pendingRequests.map (fun p => .cancelled p.1 shutdownError) ∧
      (∀ id : Nat, mapGet s.pendingRequests id ≠ none →
          Termination.cancelled id shutdownError ∈ (cleanup s).2) ∧
      (∀ (q : String) (t : Option Nat) (ok : Bool) (now : Nat),
          sendRequest (cleanup s).1 q t ok now =
            ((cleanup s).1, .threwNotInitialized notInitializedError) ∧
          sendRequest initialState q t ok now =
            (initialState, .threwNotInitialized notInitializedError)) ∧
      cleanup (cleanup s).1 = ((cleanup s).1, []) ∧
      (s.pendingRequests = [] → (cleanup s).2 = []) ∧
      (∀ id : Nat, fireTimeout (cleanup s).1 id = ((cleanup s).1, none)) := by
  intro s
  refine ⟨rfl, rfl, fun rq => rfl, rfl, ?_, ?_, rfl, ?_, ?_⟩
  · intro id hid
    have hmem : id ∈ keys s.pendingRequests := (mapGet_ne_none_iff _ _).mp hid
    simp only [keys, List.mem_map] at hmem
    obtain ⟨p, hp, hfst⟩ := hmem
    have : Termination.cancelled id shutdownError =
        Termination.cancelled p.1 shutdownError := by rw [hfst]
    rw [this]
    exact List.mem_map_of_mem _ hp
  · intro q t ok now
    exact ⟨sendRequest_not_init rfl, sendRequest_not_init rfl⟩
  · intro hzero
    simp [cleanup, hzero]
  · intro id
    exact fireTimeout_cleared rfl

/-- Witness for C5 on a state holding two pending calls. -/
theorem C5_witness :
    (cleanup ⟨[(0, ⟨0, 0, 100⟩), (1, ⟨1, 2, 200⟩)], true, 2⟩).1.pendingRequests
      = [] ∧
    Termination.cancelled 1 shutdownError ∈
      (cleanup ⟨[(0, ⟨0, 0, 100⟩), (1, ⟨1, 2, 200⟩)], true, 2⟩).2 ∧
    (cleanup initialState).2 = [] := by
  refine ⟨(C5_cleanup_shutdown ⟨[(0, ⟨0, 0, 100⟩), (1, ⟨1, 2, 200⟩)], true, 2⟩).1,
    ?_, ?_⟩
  · exact (C5_cleanup_shutdown
      ⟨[(0, ⟨0, 0, 100⟩), (1, ⟨1, 2, 200⟩)], true, 2⟩).2.2.2.2.1 1 (by decide)
  · exact (C5_cleanup_shutdown initialState).2.2.2.2.2.2.2.1 rfl

/-- C6: when publishing the envelope fails, `sendRequest` removes the
just-registered entry again (the registry is exactly as if the call had
never been registered), cancels its deadline timer (firing it afterwards is
a no-op), and fails the call with the 503 transport error; the micro trace
contains exactly one publish attempt — no retry. -/
theorem C6_publish_failure_rollback :
    ∀ (s : ServiceState) (q : String) (t : Option Nat) (now : Nat),
      s.isInitialized = true → GoodState s →
      (sendRequest s q t false now).1.pendingRequests = s.pendingRequests ∧
      (sendRequest s q t false now).2 = .threwTransport (transportError q) ∧
      (transportError q).code = 503 ∧
      fireTimeout (sendRequest s q t false now).1 s.nextUuid =
        ((sendRequest s q t false now).1, none) ∧
      ((sendRequestMicro s t false now).filter
          (fun st => st.act.isPublish)).length = 1 := by
  intro s q t now hinit hgood
  have hmem : s.nextUuid ∉ keys s.pendingRequests := nextUuid_not_mem hgood
  have hreg :
      (sendRequest s q t false now).1.pendingRequests = s.pendingRequests := by
    rw [sendRequest_pubFail hinit]
    show mapDelete (mapSet s.pendingRequests s.nextUuid _) s.nextUuid =
      s.pendingRequests
    rw [mapSet_eq_append hmem]
    exact mapDelete_append_single hmem
  refine ⟨hreg, ?_, rfl, ?_, ?_⟩
  · rw [sendRequest_pubFail hinit]
  · apply fireTimeout_cleared
    rw [hreg]
    rw [mapGet_eq_none_iff]
    exact hmem
  · have hne : ¬ s.isInitialized = false := by
      rw [hinit]
      exact fun hh => Bool.noConfusion hh
    rw [sendRequestMicro, if_neg hne]
    rfl

/-- Witness for C6 on an initialized service with one live call (id 0): a
failing publish of the next request (id 1) leaves the registry with exactly
the old entry. -/
theorem C6_witness :
    (sendRequest ⟨[(0, ⟨0, 0, 100⟩)], true, 1⟩ "faces" none false 9).1.pendingRequests
      = [(0, ⟨0, 0, 100⟩)] ∧
    (sendRequest ⟨[(0, ⟨0, 0, 100⟩)], true, 1⟩ "faces" none false 9).2 =
      .threwTransport (transportError "faces") ∧
    ((sendRequestMicro ⟨[(0, ⟨0, 0, 100⟩)], true, 1⟩ none false 9).filter
        (fun st => st.act.isPublish)).length = 1 := by
  have h := C6_publish_failure_rollback ⟨[(0, ⟨0, 0, 100⟩)], true, 1⟩ "faces"
    none 9 rfl (by constructor <;> decide)
  exact ⟨h.1, h.2.1, h.2.2.2.2⟩

/-- C7 counterexample: registering a correlation id that is already present
does NOT fail — the `Map.set` of `sendRequest` (line 113) silently replaces
the existing `PendingRequest` for key 0 with the new one, losing the old
entry, contrary to the claim that such a registration fails. -/
theorem C7_counterexample :
    mapGet [(0, ⟨0, 0, 1000⟩)] 0 = some ⟨0, 0, 1000⟩ ∧
    mapSet [(0, ⟨0, 0, 1000⟩)] 0 ⟨0, 5, 2000⟩ = [(0, ⟨0, 5, 2000⟩)] ∧
    mapGet (mapSet [(0, ⟨0, 0, 1000⟩)] 0 ⟨0, 5, 2000⟩) 0 = some ⟨0, 5, 2000⟩ ∧
    (⟨0, 5, 2000⟩ : PendingRequest) ≠ ⟨0, 0, 1000⟩ := by decide

/-- C7 amended: registration in `sendRequest` is the unconditional JS
`Map.set`, which never fails: an id already present is silently overwritten
(entries with other ids are untouched).  In actual executions no overwrite
ever happens, because the freshly generated correlation id of every
`sendRequest` differs from every live entry. -/
theorem C7_amended_silent_overwrite :
    (∀ (m : Registry) (id : Nat) (v : PendingRequest),
        mapGet (mapSet m id v) id = some v) ∧
    (∀ (m : Registry) (id id' : Nat) (v : PendingRequest), id' ≠ id →
        mapGet (mapSet m id v) id' = mapGet m id') ∧
    (∀ evs : List Event,
        (exec evs).1.nextUuid ∉ keys (exec evs).1.pendingRequests) := by
  refine ⟨mapGet_mapSet_self, fun m id id' v h => mapGet_mapSet_ne h, ?_⟩
  intro evs
  exact nextUuid_not_mem (exec_good evs)

/-- Witness for the amended C7: overwriting key 0 keeps key 1 intact, and
after the execution that registered ids 0 and 1 the next fresh id 2 collides
with no live entry. -/
theorem C7_witness :
    mapGet (mapSet [(0, ⟨0, 0, 1⟩), (1, ⟨1, 0, 2⟩)] 0 ⟨0, 9, 9⟩) 1 =
      mapGet [(0, ⟨0, 0, 1⟩), (1, ⟨1, 0, 2⟩)] 1 ∧
    (exec [.initOk, .send "a" none true 0, .send "b" none true 1]).1.nextUuid ∉
      keys (exec [.initOk, .send "a" none true 0,
        .send "b" none true 1]).1.pendingRequests :=
  ⟨C7_amended_silent_overwrite.2.1 [(0, ⟨0, 0, 1⟩), (1, ⟨1, 0, 2⟩)] 0 1 ⟨0, 9, 9⟩
      (by decide),
   C7_amended_silent_overwrite.2.2 [.initOk, .send "a" none true 0,
      .send "b" none true 1]⟩

/-- C8: a reply with `success:true` for a registered correlation id resolves
the corresponding call — the handler completes the pending promise with the
response, removes the entry, and the caller-side extraction reads the
reply's `data` payload verbatim, so a reply carrying
`data:{verified:true, confidence:0.93}` makes the call produce exactly
`{verified:true, confidence:0.93}`. -/
theorem C8_success_resolves_with_payload :
    ∀ (s : ServiceState) (resp : BaseResponse) (p : PendingRequest),
      mapGet s.pendingRequests resp.requestId = some p →
      resp.success = true →
      (handleResponse s resp).2 =
        .completed (.resolvedSuccess resp.requestId resp) ∧
      mapGet (handleResponse s resp).1.pendingRequests resp.requestId = none ∧
      (processVerificationResponse resp).verified = resp.data.verified ∧
      (processVerificationResponse resp).confidence = resp.data.confidence ∧
      (processVerificationResponse resp).requiredConfidence =
        resp.data.requiredConfidence := by
  intro s resp p hm hs
  rw [handleResponse_known hm]
  refine ⟨?_, mapGet_mapDelete_self _ _, rfl, rfl, rfl⟩
  show HandleResult.completed (terminationOfSettle resp.requestId
    (settleResponse resp)) = _
  rw [settleResponse, if_pos hs]
  rfl

/-- Witness for C8: the round-trip scenario — a registered call (id 0)
receives `{success:true, data:{verified:true, confidence:0.93}}` and
resolves with that payload. -/
theorem C8_witness :
    (handleResponse ⟨[(0, ⟨0, 0, 1000⟩)], true, 1⟩
        ⟨0, "t", true, none, ⟨true, 93/100, "u1", 85/100, none⟩⟩).2 =
      .completed (.resolvedSuccess 0
        ⟨0, "t", true, none, ⟨true, 93/100, "u1", 85/100, none⟩⟩) ∧
    (processVerificationResponse
        ⟨0, "t", true, none, ⟨true, 93/100, "u1", 85/100, none⟩⟩).verified =
      true ∧
    (processVerificationResponse
        ⟨0, "t", true, none, ⟨true, 93/100, "u1", 85/100, none⟩⟩).confidence =
      93/100 := by
  have h := C8_success_resolves_with_payload ⟨[(0, ⟨0, 0, 1000⟩)], true, 1⟩
    ⟨0, "t", true, none, ⟨true, 93/100, "u1", 85/100, none⟩⟩ ⟨0, 0, 1000⟩
    (by decide) rfl
  exact ⟨h.1, h.2.2.1, h.2.2.2.1⟩

/-- C9 counterexample: the remote's code and message are NOT carried
verbatim.  For a registered call (id 0), a `success:false` reply carrying
`error:{code:"0", message:""}` is rejected with
`AppError(500, "Face recognition service error")` — the numeric code 500 is
not the remote code `"0"` and the message is not the remote's empty string,
because the code runs `error?.code || '500'`, `parseInt(...) || 500` and
`error?.message || 'Face recognition service error'`. -/
theorem C9_counterexample :
    (handleResponse ⟨[(0, ⟨0, 0, 1000⟩)], true, 1⟩
        ⟨0, "t", false, some ⟨"0", ""⟩, ⟨false, 0, "u", 0, none⟩⟩).2 =
      .completed (.rejectedRemote 0 ⟨500, "Face recognition service error"⟩) ∧
    parseIntJS "0" = some 0 ∧
    (500 : Int) ≠ 0 ∧
    "Face recognition service error" ≠ "" := by decide

/-- C9 amended: a `success:false` reply for a registered id rejects the call
with the `AppError` built from the remote error, whose message is the
remote's message verbatim whenever it is nonempty, and whose numeric code is
the decimal integer parsed from the remote's code whenever that parse yields
a nonzero integer (each otherwise falling back, to
"Face recognition service error" and 500 respectively); in particular
`error:{code:"404", message:"face not found"}` yields
`AppError(404, "face not found")`. -/
theorem C9_amended_remote_error :
    ∀ (s : ServiceState) (resp : BaseResponse) (p : PendingRequest)
      (c msg : String),
      mapGet s.pendingRequests resp.requestId = some p →
      resp.success = false →
      resp.error = some ⟨c, msg⟩ →
      (handleResponse s resp).2 =
        .completed (.rejectedRemote resp.requestId (remoteAppError resp.error)) ∧
      (msg ≠ "" → (remoteAppError resp.error).message = msg) ∧
      (∀ k : Int, parseIntJS c = some k → k ≠ 0 →
          (remoteAppError resp.error).code = k) := by
  intro s resp p c msg hm hs herr
  refine ⟨?_, ?_, ?_⟩
  · rw [handleResponse_known hm]
    show HandleResult.completed (terminationOfSettle resp.requestId
      (settleResponse resp)) = _
    rw [settleResponse, if_neg (by rw [hs]; exact fun hh => Bool.noConfusion hh)]
    rfl
  · intro hmsg
    rw [herr]
    show remoteErrorMessage (some ⟨c, msg⟩) = msg
    simp [remoteErrorMessage, jsOrString, hmsg]
  · intro k hk hk0
    rw [herr]
    have hc : c ≠ "" := by
      intro hc
      rw [hc] at hk
      have : parseIntJS "" = none := by decide
      rw [this] at hk
      exact Option.noConfusion hk
    show jsOrInt (parseIntJS (remoteErrorCodeStr (some ⟨c, msg⟩))) 500 = k
    have h1 : remoteErrorCodeStr (some ⟨c, msg⟩) = c := by
      simp [remoteErrorCodeStr, jsOrString, hc]
    rw [h1, hk]
    simp [jsOrInt, hk0]

/-- Witness for the amended C9: the remote-failure scenario — a registered
call rejected by `error:{code:"404", message:"face not found"}` yields
`AppError(404, "face not found")`. -/
theorem C9_witness :
    (handleResponse ⟨[(0, ⟨0, 0, 1000⟩)], true, 1⟩
        ⟨0, "t", false, some ⟨"404", "face not found"⟩,
          ⟨false, 0, "u", 0, none⟩⟩).2 =
      .completed (.rejectedRemote 0
        (remoteAppError (some ⟨"404", "face not found"⟩))) ∧
    (remoteAppError (some ⟨"404", "face not found"⟩)).message =
      "face not found" ∧
    (remoteAppError (some ⟨"404", "face not found"⟩)).code = 404 := by
  have h := C9_amended_remote_error ⟨[(0, ⟨0, 0, 1000⟩)], true, 1⟩
    ⟨0, "t", false, some ⟨"404", "face not found"⟩, ⟨false, 0, "u", 0, none⟩⟩
    ⟨0, 0, 1000⟩ "404" "face not found" (by decide) rfl rfl
  refine ⟨h.1, h.2.1 (by decide), h.2.2 404 (by decide) (by decide)⟩

/-- C10 counterexample: the second half of the claim fails when the remote
message is empty.  For a registered call, a `success:false` reply with
`error:{code:"abc", message:""}` — code present but not parseable — is
rejected with code 500 as claimed, but the message is NOT kept: the empty
string is falsy for `||`, so the fallback
"Face recognition service error" replaces it. -/
theorem C10_counterexample :
    (handleResponse ⟨[(3, ⟨3, 0, 500⟩)], true, 4⟩
        ⟨3, "t", false, some ⟨"abc", ""⟩, ⟨false, 0, "u", 0, none⟩⟩).2 =
      .completed (.rejectedRemote 3 ⟨500, "Face recognition service error"⟩) ∧
    parseIntJS "abc" = none ∧
    "Face recognition service error" ≠ "" := by decide

/-- C10 amended: a `success:false` response with no error object at all is
rejected with code 500 and message "Face recognition service error"; and
when `error.code` is present but not a parseable decimal integer the numeric
code likewise falls back to 500, while the message is kept whenever it is
nonempty (an empty message falls back to "Face recognition service error"
as well). -/
theorem C10_amended_error_fallbacks :
    (∀ (s : ServiceState) (resp : BaseResponse) (p : PendingRequest),
        mapGet s.pendingRequests resp.requestId = some p →
        resp.success = false →
        resp.error = none →
        (handleResponse s resp).2 =
          .completed (.rejectedRemote resp.requestId
            ⟨500, "Face recognition service error"⟩)) ∧
    (∀ c msg : String, parseIntJS c = none →
        (remoteAppError (some ⟨c, msg⟩)).code = 500 ∧
        (msg ≠ "" → (remoteAppError (some ⟨c, msg⟩)).message = msg) ∧
        (msg = "" → (remoteAppError (some ⟨c, msg⟩)).message =
          "Face recognition service error")) := by
  constructor
  · intro s resp p hm hs herr
    rw [handleResponse_known hm]
    show HandleResult.completed (terminationOfSettle resp.requestId
      (settleResponse resp)) = _
    rw [settleResponse, if_neg (by rw [hs]; exact fun hh => Bool.noConfusion hh),
      herr]
    have : remoteAppError none = ⟨500, "Face recognition service error"⟩ := by
      decide
    rw [this]
    rfl
  · intro c msg hc
    refine ⟨?_, ?_, ?_⟩
    · show jsOrInt (parseIntJS (remoteErrorCodeStr (some ⟨c, msg⟩))) 500 = 500
      by_cases hce : c = ""
      · subst hce
        have h1 : remoteErrorCodeStr (some ⟨"", msg⟩) = "500" := by
          simp [remoteErrorCodeStr, jsOrString]
        rw [h1]
        decide
      · have h1 : remoteErrorCodeStr (some ⟨c, msg⟩) = c := by
          simp [remoteErrorCodeStr, jsOrString, hce]
        rw [h1, hc]
        rfl
    · intro hmsg
      show remoteErrorMessage (some ⟨c, msg⟩) = msg
      simp [remoteErrorMessage, jsOrString, hmsg]
    · intro hmsg
      subst hmsg
      rfl

/-- Witness for the amended C10: a reply with no error object yields
`AppError(500, "Face recognition service error")`, and a non-parseable code
"abc" with the nonempty message "boom" yields code 500 with "boom" kept. -/
theorem C10_witness :
    (handleResponse ⟨[(0, ⟨0, 0, 1000⟩)], true, 1⟩
        ⟨0, "t", false, none, ⟨false, 0, "u", 0, none⟩⟩).2 =
      .completed (.rejectedRemote 0 ⟨500, "Face recognition service error"⟩) ∧
    (remoteAppError (some ⟨"abc", "boom"⟩)).code = 500 ∧
    (remoteAppError (some ⟨"abc", "boom"⟩)).message = "boom" := by
  have h1 := C10_amended_error_fallbacks.1 ⟨[(0, ⟨0, 0, 1000⟩)], true, 1⟩
    ⟨0, "t", false, none, ⟨false, 0, "u", 0, none⟩⟩ ⟨0, 0, 1000⟩
    (by decide) rfl rfl
  have h2 := C10_amended_error_fallbacks.2 "abc" "boom" (by decide)
  exact ⟨h1, h2.1, h2.2.1 (by decide)⟩

end AtenderService
